import Mathlib

/-!
Verification of the SubtitleManager pipeline (SubtitleUtils.py,
SubtitleDownloader.py) against its specification.

The development shallowly embeds the program:
* the text codecs that `codecs.open(..., encoding=e)` dispatches to
  (`utf-8`, `windows-1256`, `iso-8859-7`) as byte-list validators and
  decoders over `List Nat`;
* the filesystem as a finitely branching tree of directories, with
  `os.walk`'s top-down traversal as a function producing the list of
  (directory path, files) pairs in the order the generator yields them;
* each Python function (`get_subtitle_encoding`, `rename_subtitles`,
  `encode_subtitles`, `clean_folder`, `download_subtitle`) as a pure
  function over that model, with network/extraction outcomes supplied
  by an environment record and OS-level per-file failures supplied by
  oracles where a claim is about error isolation.
-/

/-! ## Byte-level codecs

Python's `utf-8` codec accepts exactly the RFC 3629 well-formed byte
sequences: no overlongs, no surrogates, nothing above U+10FFFF, no
truncated sequences.  `utf8Valid` is that acceptor over a whole file. -/

/-- Continuation byte test for UTF-8 (second and later bytes of a
multi-byte sequence). -/
def isCont (b : Nat) : Bool := 0x80 ≤ b && b ≤ 0xBF

/-! Mutual helpers of `utf8Valid`: after a leading byte of each class,
check the required continuation bytes and go on validating. -/
mutual
/-- Whether a byte list is well-formed UTF-8, exactly as Python's
strict `utf-8` decoder used by `codecs.open(..., encoding='utf-8')`
would accept it: dispatch on the leading byte's class, then check the
continuation bytes that class requires. -/
def utf8Valid : List Nat → Bool
  | [] => true
  | b :: rest =>
    if b ≤ 0x7F then utf8Valid rest
    else if 0xC2 ≤ b ∧ b ≤ 0xDF then utf8Cont1 rest
    else if b = 0xE0 then utf8ContE0 rest
    else if (0xE1 ≤ b ∧ b ≤ 0xEC) ∨ b = 0xEE ∨ b = 0xEF then utf8Cont2 rest
    else if b = 0xED then utf8ContED rest
    else if b = 0xF0 then utf8ContF0 rest
    else if 0xF1 ≤ b ∧ b ≤ 0xF3 then utf8Cont3 rest
    else if b = 0xF4 then utf8ContF4 rest
    else false

/-- One unconstrained continuation byte (after 0xC2-0xDF). -/
def utf8Cont1 : List Nat → Bool
  | b1 :: rest1 => isCont b1 && utf8Valid rest1
  | [] => false

/-- Continuations after 0xE0: second byte 0xA0-0xBF (no overlongs). -/
def utf8ContE0 : List Nat → Bool
  | b1 :: b2 :: rest2 => (0xA0 ≤ b1 && b1 ≤ 0xBF) && isCont b2 && utf8Valid rest2
  | _ => false

/-- Two unconstrained continuation bytes (after 0xE1-0xEC, 0xEE, 0xEF). -/
def utf8Cont2 : List Nat → Bool
  | b1 :: b2 :: rest2 => isCont b1 && isCont b2 && utf8Valid rest2
  | _ => false

/-- Continuations after 0xED: second byte 0x80-0x9F (no surrogates). -/
def utf8ContED : List Nat → Bool
  | b1 :: b2 :: rest2 => (0x80 ≤ b1 && b1 ≤ 0x9F) && isCont b2 && utf8Valid rest2
  | _ => false

/-- Continuations after 0xF0: second byte 0x90-0xBF (no overlongs). -/
def utf8ContF0 : List Nat → Bool
  | b1 :: b2 :: b3 :: rest3 =>
      (0x90 ≤ b1 && b1 ≤ 0xBF) && isCont b2 && isCont b3 && utf8Valid rest3
  | _ => false

/-- Three unconstrained continuation bytes (after 0xF1-0xF3). -/
def utf8Cont3 : List Nat → Bool
  | b1 :: b2 :: b3 :: rest3 => isCont b1 && isCont b2 && isCont b3 && utf8Valid rest3
  | _ => false

/-- Continuations after 0xF4: second byte 0x80-0x8F (not above U+10FFFF). -/
def utf8ContF4 : List Nat → Bool
  | b1 :: b2 :: b3 :: rest3 =>
      (0x80 ≤ b1 && b1 ≤ 0x8F) && isCont b2 && isCont b3 && utf8Valid rest3
  | _ => false
end

/-- Unicode scalar value test: code points representable in UTF-8
(below U+110000 and not a surrogate). -/
def isScalar (c : Nat) : Bool := c < 0x110000 && !(0xD800 ≤ c && c ≤ 0xDFFF)

/-- UTF-8 encoding of one code point (what Python's `utf-8` encoder
emits when `codecs.open(..., 'w', 'utf-8')` writes a character). -/
def utf8EncodeChar (c : Nat) : List Nat :=
  if c < 0x80 then [c]
  else if c < 0x800 then [0xC0 + c / 64, 0x80 + c % 64]
  else if c < 0x10000 then [0xE0 + c / 4096, 0x80 + (c / 64) % 64, 0x80 + c % 64]
  else [0xF0 + c / 262144, 0x80 + (c / 4096) % 64, 0x80 + (c / 64) % 64, 0x80 + c % 64]

/-- UTF-8 encoding of a sequence of code points. -/
def utf8Encode (cs : List Nat) : List Nat := cs.flatMap utf8EncodeChar

/-- Decoding table of Python's `cp1256` (windows-1256) codec for bytes
0x80–0xFF, from the codec's `decoding_table` (bytes 0x00–0x7F decode to
themselves).  Every one of the 128 positions is defined: windows-1256
assigns a character to every byte value. -/
def cp1256HighTable : List Nat :=
  [0x20AC, 0x067E, 0x201A, 0x0192, 0x201E, 0x2026, 0x2020, 0x2021,
   0x02C6, 0x2030, 0x0679, 0x2039, 0x0152, 0x0686, 0x0698, 0x0688,
   0x06AF, 0x2018, 0x2019, 0x201C, 0x201D, 0x2022, 0x2013, 0x2014,
   0x06A9, 0x2122, 0x0691, 0x203A, 0x0153, 0x200C, 0x200D, 0x06BA,
   0x00A0, 0x060C, 0x00A2, 0x00A3, 0x00A4, 0x00A5, 0x00A6, 0x00A7,
   0x00A8, 0x00A9, 0x06BE, 0x00AB, 0x00AC, 0x00AD, 0x00AE, 0x00AF,
   0x00B0, 0x00B1, 0x00B2, 0x00B3, 0x00B4, 0x00B5, 0x00B6, 0x00B7,
   0x00B8, 0x00B9, 0x061B, 0x00BB, 0x00BC, 0x00BD, 0x00BE, 0x061F,
   0x06C1, 0x0621, 0x0622, 0x0623, 0x0624, 0x0625, 0x0626, 0x0627,
   0x0628, 0x0629, 0x062A, 0x062B, 0x062C, 0x062D, 0x062E, 0x062F,
   0x0630, 0x0631, 0x0632, 0x0633, 0x0634, 0x0635, 0x0636, 0x00D7,
   0x0637, 0x0638, 0x0639, 0x063A, 0x0640, 0x0641, 0x0642, 0x0643,
   0x00E0, 0x0644, 0x00E2, 0x0645, 0x0646, 0x0647, 0x0648, 0x00E7,
   0x00E8, 0x00E9, 0x00EA, 0x00EB, 0x0649, 0x064A, 0x00EE, 0x00EF,
   0x064B, 0x064C, 0x064D, 0x064E, 0x00F4, 0x064F, 0x0650, 0x00F7,
   0x0651, 0x00F9, 0x0652, 0x00FB, 0x00FC, 0x200E, 0x200F, 0x06D2]

/-- Decode one byte under windows-1256; `none` means the codec would
raise `UnicodeDecodeError` on that byte (which never happens for a
value below 256). -/
def cp1256DecodeByte (b : Nat) : Option Nat :=
  if b < 0x80 then some b
  else if b < 0x100 then cp1256HighTable.get? (b - 0x80)
  else none

/-- Whether the windows-1256 codec decodes an entire byte list without
error. -/
def cp1256Valid (bs : List Nat) : Bool := bs.all fun b => (cp1256DecodeByte b).isSome

/-- Text obtained by decoding a byte list with windows-1256 (defined
on the bytes the codec accepts; undefined bytes are dropped, a case
that cannot arise when `cp1256Valid` holds). -/
def cp1256Decode (bs : List Nat) : List Nat := bs.filterMap cp1256DecodeByte

/-- Decoding table of Python's `iso8859_7` codec for bytes 0x80–0xFF,
from the codec's `decoding_table`.  `none` marks the three positions
(0xAE, 0xD2, 0xFF) the table leaves undefined, where decoding raises. -/
def iso8859_7HighTable : List (Option Nat) :=
  [some 0x0080, some 0x0081, some 0x0082, some 0x0083,
   some 0x0084, some 0x0085, some 0x0086, some 0x0087,
   some 0x0088, some 0x0089, some 0x008A, some 0x008B,
   some 0x008C, some 0x008D, some 0x008E, some 0x008F,
   some 0x0090, some 0x0091, some 0x0092, some 0x0093,
   some 0x0094, some 0x0095, some 0x0096, some 0x0097,
   some 0x0098, some 0x0099, some 0x009A, some 0x009B,
   some 0x009C, some 0x009D, some 0x009E, some 0x009F,
   some 0x00A0, some 0x2018, some 0x2019, some 0x00A3,
   some 0x20AC, some 0x20AF, some 0x00A6, some 0x00A7,
   some 0x00A8, some 0x00A9, some 0x037A, some 0x00AB,
   some 0x00AC, some 0x00AD, none,        some 0x2015,
   some 0x00B0, some 0x00B1, some 0x00B2, some 0x00B3,
   some 0x0384, some 0x0385, some 0x0386, some 0x00B7,
   some 0x0388, some 0x0389, some 0x038A, some 0x00BB,
   some 0x038C, some 0x00BD, some 0x038E, some 0x038F,
   some 0x0390, some 0x0391, some 0x0392, some 0x0393,
   some 0x0394, some 0x0395, some 0x0396, some 0x0397,
   some 0x0398, some 0x0399, some 0x039A, some 0x039B,
   some 0x039C, some 0x039D, some 0x039E, some 0x039F,
   some 0x03A0, some 0x03A1, none,        some 0x03A3,
   some 0x03A4, some 0x03A5, some 0x03A6, some 0x03A7,
   some 0x03A8, some 0x03A9, some 0x03AA, some 0x03AB,
   some 0x03AC, some 0x03AD, some 0x03AE, some 0x03AF,
   some 0x03B0, some 0x03B1, some 0x03B2, some 0x03B3,
   some 0x03B4, some 0x03B5, some 0x03B6, some 0x03B7,
   some 0x03B8, some 0x03B9, some 0x03BA, some 0x03BB,
   some 0x03BC, some 0x03BD, some 0x03BE, some 0x03BF,
   some 0x03C0, some 0x03C1, some 0x03C2, some 0x03C3,
   some 0x03C4, some 0x03C5, some 0x03C6, some 0x03C7,
   some 0x03C8, some 0x03C9, some 0x03CA, some 0x03CB,
   some 0x03CC, some 0x03CD, some 0x03CE, none]

/-- Decode one byte under iso-8859-7; `none` means the codec raises. -/
def iso8859_7DecodeByte (b : Nat) : Option Nat :=
  if b < 0x80 then some b
  else if b < 0x100 then (iso8859_7HighTable.get? (b - 0x80)).join
  else none

/-- Whether the iso-8859-7 codec decodes an entire byte list without
error. -/
def iso8859_7Valid (bs : List Nat) : Bool := bs.all fun b => (iso8859_7DecodeByte b).isSome

/-- Text obtained by decoding a byte list with iso-8859-7. -/
def iso8859_7Decode (bs : List Nat) : List Nat := bs.filterMap iso8859_7DecodeByte

/-! ## Filesystem model

A directory tree: each directory holds a list of files (name and byte
content, in listing order) and a list of named subdirectories.  The
mutual `DirTree`/`Forest` presentation keeps structural recursion and
induction straightforward. -/

/-- A regular file: its name and its byte content. -/
structure FileEntry where
  name : String
  content : List Nat
deriving DecidableEq

mutual
/-- A directory: its files and its subdirectories, each in listing
order. -/
inductive DirTree where
  | node (files : List FileEntry) (subdirs : Forest)
deriving DecidableEq

/-- The ordered list of named subdirectories of a directory. -/
inductive Forest where
  | nil
  | cons (name : String) (tree : DirTree) (rest : Forest)
deriving DecidableEq
end

/-- Path of a directory relative to the walked root, as the list of
subdirectory names leading to it. -/
abbrev DirPath := List String

mutual
/-- Model of `os.walk(path)` (top-down, the default): the list of
(directory path, files in that directory) pairs in the order the
generator yields them — a directory's own triple first, then the walks
of its subdirectories in listing order. -/
def walkT (p : DirPath) : DirTree → List (DirPath × List FileEntry)
  | .node files subs => (p, files) :: walkF p subs

/-- Walk of a list of subdirectories, in order. -/
def walkF (p : DirPath) : Forest → List (DirPath × List FileEntry)
  | .nil => []
  | .cons n t rest => walkT (p ++ [n]) t ++ walkF p rest
end

/-! ## get_subtitle_encoding (SubtitleUtils.py lines 12–59) -/

/-- The candidate list `encodings = ['utf-8', 'windows-1256',
'iso-8859-7']` in `get_subtitle_encoding`. -/
def encodingCandidates : List String := ["utf-8", "windows-1256", "iso-8859-7"]

/-- Whether `codecs.open(path, 'r', encoding=e)` followed by
`readlines()` succeeds on a file with byte content `bs`: dispatch on
the encoding name to the corresponding codec's acceptor. -/
def decodesWith (e : String) (bs : List Nat) : Bool :=
  if e = "utf-8" then utf8Valid bs
  else if e = "windows-1256" then cp1256Valid bs
  else if e = "iso-8859-7" then iso8859_7Valid bs
  else false

/-- The `for e in encodings` loop body of `get_subtitle_encoding`:
return the first candidate that reads the file without error. -/
def detectLoop (bs : List Nat) : List String → Option String
  | [] => none
  | e :: rest => if decodesWith e bs then some e else detectLoop bs rest

/-- Model of `get_subtitle_encoding`.  The argument is `none` when
`os.path.exists` is false (the file does not exist), `some bs` when the
file exists with byte content `bs`.  Returns the first candidate
encoding that decodes the whole content, else the sentinel
`'not_detected'`. -/
def get_subtitle_encoding (file : Option (List Nat)) : String :=
  match file with
  | none => "not_detected"
  | some bs =>
    match detectLoop bs encodingCandidates with
    | some e => e
    | none => "not_detected"

/-! ## rename_subtitles (SubtitleUtils.py lines 61–137) -/

/-- Model of Python's `str.endswith(suffix)` on file names: character
list comparison (kept kernel-computable, unlike `String.endsWith`). -/
def strHasSuffix (s suffix : String) : Bool :=
  let cs := s.toList
  let ps := suffix.toList
  if ps.length ≤ cs.length then decide (cs.drop (cs.length - ps.length) = ps) else false

/-- Model of `os.path.splitext(name)[0]` for a bare filename: drop the
final extension at the last dot, except that a name whose characters
before the last dot are all dots (e.g. a leading-dot file) is returned
whole. -/
def splitextBase (s : String) : String :=
  let cs := s.toList
  let dots := (List.range cs.length).filter fun i => cs.getD i ' ' = '.'
  match dots.getLast? with
  | none => s
  | some i => if (cs.take i).all (fun c => c = '.') then s else String.mk (cs.take i)

/-- The check `file_name.endswith(('.mp4', '.mkv', '.avi'))`. -/
def isVideo (name : String) : Bool :=
  strHasSuffix name ".mp4" || strHasSuffix name ".mkv" || strHasSuffix name ".avi"

/-- Inner loop of the movie search: the first video file in a
directory's file list, giving `os.path.splitext(file_name)[0]`. -/
def firstVideoInFiles : List FileEntry → Option String
  | [] => none
  | f :: rest => if isVideo f.name then some (splitextBase f.name) else firstVideoInFiles rest

/-- Outer loop of the movie search over the walk entries: the
`movie_files_found` flag plus the two `break`s stop the walk at the
first yielded directory whose file list contains a video file. -/
def findMovieLoop : List (DirPath × List FileEntry) → Option String
  | [] => none
  | (_, files) :: rest =>
    match firstVideoInFiles files with
    | some b => some b
    | none => findMovieLoop rest

/-- The reference base name `filename_without_ext` computed by the
first `os.walk` of `rename_subtitles`, `none` iff no video file exists
anywhere in the tree. -/
def find_movie_base (t : DirTree) : Option String := findMovieLoop (walkT [] t)

/-- The `.srt` collection of the second `os.walk`: full paths (here:
directory path and file name) of every `.srt` file, in walk order. -/
def srtFilesInWalk (t : DirTree) : List (DirPath × String) :=
  (walkT [] t).flatMap fun e =>
    ((e.2.filter fun f => strHasSuffix f.name ".srt").map fun f => (e.1, f.name))

/-- One attempted `os.rename`: the directory it happens in
(`original_dir = os.path.dirname(srt_file_full_path)`), the old base
name, and the new base name — the target path is
`os.path.join(original_dir, new_subtitle_name)`, i.e. in `dir`. -/
structure RenameOp where
  dir : DirPath
  oldName : String
  newName : String
deriving DecidableEq

/-- The new name chosen for a subtitle file: `base.srt` when exactly
one `.srt` file was collected (`srtCounter == 1`), else
`base.counter.srt` with the running 1-based counter. -/
def newSubtitleName (base : String) (srtCounter counter : Nat) : String :=
  if srtCounter = 1 then base ++ ".srt"
  else base ++ "." ++ toString counter ++ ".srt"

/-- The rename loop of `rename_subtitles`: one op per collected `.srt`
file, with the counter incremented after every file. -/
def renameOpsAux (base : String) (srtCounter : Nat) :
    List (DirPath × String) → Nat → List RenameOp
  | [], _ => []
  | (d, n) :: rest, counter =>
    ⟨d, n, newSubtitleName base srtCounter counter⟩ :: renameOpsAux base srtCounter rest (counter + 1)

/-- Result of `rename_subtitles`: the attempted rename operations in
order, and which of the two early-return messages (no movie file / no
subtitle files) was printed. -/
structure RenameReport where
  ops : List RenameOp
  noMovieFound : Bool
  noSrtFound : Bool
deriving DecidableEq

/-- Model of `rename_subtitles`: find the reference video base name;
if none, return after the "No movie files" message; otherwise collect
all `.srt` files and rename each in its own directory. -/
def rename_subtitles (t : DirTree) : RenameReport :=
  match find_movie_base t with
  | none => ⟨[], true, false⟩
  | some base =>
    let srts := srtFilesInWalk t
    if srts.length = 0 then ⟨[], false, true⟩
    else ⟨renameOpsAux base srts.length srts 1, false, false⟩

/-! ## encode_subtitles (SubtitleUtils.py lines 140–189) -/

/-- Reading a file's bytes as text with the detected encoding
(`codecs.open(path, 'r', encoding=encoding).read()`).  Only the two
legacy encodings can reach the re-encoding step — `'utf-8'` and
`'not_detected'` were skipped just before — so the dispatch covers
exactly those. -/
def decodeWith (e : String) (bs : List Nat) : List Nat :=
  if e = "windows-1256" then cp1256Decode bs
  else if e = "iso-8859-7" then iso8859_7Decode bs
  else bs

/-- Per-file step of `encode_subtitles` on a file with byte content
`bs`: detect, skip `'not_detected'` and `'utf-8'`, otherwise rewrite
the file with its text re-encoded as UTF-8. -/
def encodeFileBytes (bs : List Nat) : List Nat :=
  let enc := get_subtitle_encoding (some bs)
  if enc = "not_detected" then bs
  else if enc = "utf-8" then bs
  else utf8Encode (decodeWith enc bs)

/-- Effect of `encode_subtitles` on one directory entry: only `.srt`
files are touched, in place. -/
def processEntry (f : FileEntry) : FileEntry :=
  if strHasSuffix f.name ".srt" then ⟨f.name, encodeFileBytes f.content⟩ else f

mutual
/-- Model of `encode_subtitles`: every `.srt` file in the tree has its
content normalized by the per-file step; names and structure are
untouched. -/
def encode_subtitles : DirTree → DirTree
  | .node files subs => .node (files.map processEntry) (encodeForest subs)

/-- Forest part of `encode_subtitles`. -/
def encodeForest : Forest → Forest
  | .nil => .nil
  | .cons n t rest => .cons n (encode_subtitles t) (encodeForest rest)
end

/-! ## clean_folder and download_subtitle (SubtitleDownloader.py) -/

/-- The deletion test of `clean_folder`:
`file_name.endswith('.srt') or file_name.endswith('.zip')`. -/
def isCleanTarget (name : String) : Bool :=
  strHasSuffix name ".srt" || strHasSuffix name ".zip"

mutual
/-- Model of `clean_folder` (lines 73–98): remove every `.srt`/`.zip`
file everywhere in the tree, leave all other files and the directory
structure alone. -/
def clean_folder : DirTree → DirTree
  | .node files subs => .node (files.filter fun f => !isCleanTarget f.name) (cleanForest subs)

/-- Forest part of `clean_folder`. -/
def cleanForest : Forest → Forest
  | .nil => .nil
  | .cons n t rest => .cons n (clean_folder t) (cleanForest rest)
end

/-- Files of the root directory of a tree (the directory
`download_subtitle` joins `'sub.zip'` onto). -/
def rootFiles : DirTree → List FileEntry
  | .node files _ => files

/-- Model of `os.remove` on a root-directory file name, guarded by
`os.path.exists` (absence is a no-op). -/
def removeRootFile (name : String) : DirTree → DirTree
  | .node files subs => .node (files.filter fun f => f.name ≠ name) subs

/-- Model of `open(path, 'wb')` + `write` in the root directory:
truncate/replace any existing file of that name. -/
def writeRootFile (name : String) (content : List Nat) : DirTree → DirTree
  | .node files subs => .node ((files.filter fun f => f.name ≠ name) ++ [⟨name, content⟩]) subs

/-- Environment for one `download_subtitle` invocation.  `download` is
the outcome of `requests.get` + `raise_for_status`: `none` when a
`RequestException` was raised (network error, timeout, non-2xx
status), `some content` with the response body otherwise.  `extract`
is the outcome of `zipfile.ZipFile(...).extractall`: from the tree as
written, the tree it leaves behind and whether it returned normally
(`false` covers `BadZipFile` and any other exception, with arbitrary
partial extraction already applied to the returned tree). -/
structure FetchEnv where
  download : Option (List Nat)
  extract : DirTree → DirTree × Bool

/-- Model of `download_subtitle` (lines 14–71): pre-clean always runs;
a failed download returns right after it; otherwise the body is
written to `sub.zip` in the target directory, extraction is attempted,
and the `finally` block removes `sub.zip` whatever extraction did. -/
def download_subtitle (env : FetchEnv) (t : DirTree) : DirTree :=
  let cleaned := clean_folder t
  match env.download with
  | none => cleaned
  | some content =>
    let written := writeRootFile "sub.zip" content cleaned
    let extracted := (env.extract written).1
    removeRootFile "sub.zip" extracted

/-! ## Per-file failure oracles

The rename loop wraps each `os.rename` in `try/except OSError` and the
re-encoding step wraps each read/write pair in `try/except Exception`;
in both, the handler prints and the loop moves on (the rename counter
is incremented outside the `try`).  The oracle says which operations
the OS makes fail. -/

/-- The rename loop with an OS failure oracle: each attempted op and
whether it succeeded; a failure is caught and the loop continues with
the counter still incremented. -/
def renameExecAux (fails : RenameOp → Bool) (base : String) (srtCounter : Nat) :
    List (DirPath × String) → Nat → List (RenameOp × Bool)
  | [], _ => []
  | (d, n) :: rest, counter =>
    (⟨d, n, newSubtitleName base srtCounter counter⟩,
      !fails ⟨d, n, newSubtitleName base srtCounter counter⟩)
      :: renameExecAux fails base srtCounter rest (counter + 1)

/-- What happened to one `.srt` file in `encode_subtitles`. -/
inductive EncodeOutcome where
  | skippedUndetected
  | skippedUtf8
  | rewritten (newContent : List Nat)
  | failed
deriving DecidableEq

/-- Per-file step of `encode_subtitles` with an I/O failure oracle for
the read/write pair of the re-encoding branch. -/
def encodeStep (ioFails : DirPath × String → Bool) (p : DirPath × String)
    (bs : List Nat) : EncodeOutcome :=
  let enc := get_subtitle_encoding (some bs)
  if enc = "not_detected" then .skippedUndetected
  else if enc = "utf-8" then .skippedUtf8
  else if ioFails p then .failed
  else .rewritten (utf8Encode (decodeWith enc bs))

/-- The `.srt` files of the walk with their contents, in the order
`encode_subtitles` visits them. -/
def srtEntriesInWalk (t : DirTree) : List (DirPath × String × List Nat) :=
  (walkT [] t).flatMap fun e =>
    ((e.2.filter fun f => strHasSuffix f.name ".srt").map fun f => (e.1, f.name, f.content))

/-- The file loop of `encode_subtitles` under the failure oracle: one
outcome per `.srt` file, a failure caught and the loop continued. -/
def encodeExecLoop (ioFails : DirPath × String → Bool) :
    List (DirPath × String × List Nat) → List ((DirPath × String) × EncodeOutcome)
  | [] => []
  | (d, n, bs) :: rest =>
    ((d, n), encodeStep ioFails (d, n) bs) :: encodeExecLoop ioFails rest

/-! ## Concrete example trees and environments

Small concrete filesystems used to instantiate the verified
properties. -/

/-- A tree whose first-walked subtree holds a video file two levels
deep while a later sibling subtree holds one a single level deep:
`./a/a1/deep.mp4` and `./b/shallow.mp4`. -/
def exTreeTwoDepths : DirTree :=
  .node []
    (.cons "a" (.node [] (.cons "a1" (.node [⟨"deep.mp4", []⟩] .nil) .nil))
      (.cons "b" (.node [⟨"shallow.mp4", []⟩] .nil) .nil))

/-- A tree with a video file in the root directory and another in a
subdirectory: `./Root.avi` and `./a/deep.mp4`. -/
def exTreeRootVideo : DirTree :=
  .node [⟨"Root.avi", []⟩] (.cons "a" (.node [⟨"deep.mp4", []⟩] .nil) .nil)

/-- A tree with one video file and three subtitle files, one beside
the movie and two in a subdirectory. -/
def exTreeRename : DirTree :=
  .node [⟨"Movie.mkv", []⟩, ⟨"a.srt", [0x41]⟩]
    (.cons "sub" (.node [⟨"b.srt", [0xC7]⟩, ⟨"c.srt", [0x43]⟩] .nil) .nil)

/-- A tree with one video file and a single subtitle file. -/
def exTreeOneSrt : DirTree :=
  .node [⟨"Movie.mkv", []⟩, ⟨"only.srt", [0xE4]⟩] .nil

/-- A tree containing no video file at all. -/
def exTreeNoVideo : DirTree :=
  .node [⟨"notes.txt", []⟩, ⟨"x.srt", [0x41]⟩]
    (.cons "sub" (.node [⟨"y.srt", [0x42]⟩] .nil) .nil)

/-- A tree with subtitle, archive and unrelated files mixed. -/
def exTreeDirty : DirTree :=
  .node [⟨"old.srt", [0x41]⟩, ⟨"keep.txt", [0x42]⟩, ⟨"sub.zip", [0x50]⟩]
    (.cons "d" (.node [⟨"nested.zip", [0x51]⟩, ⟨"movie.mkv", []⟩] .nil) .nil)

/-- A tree that contains no subtitle or archive artifact. -/
def exTreeClean : DirTree :=
  .node [⟨"keep.txt", [0x42]⟩] (.cons "d" (.node [⟨"movie.mkv", []⟩] .nil) .nil)

/-- A fetch environment whose download succeeds but whose extraction
raises after scattering some files, including a stray `sub.zip` in the
root, modelling the worst allowed collaborator behaviour. -/
def exEnvBadExtract : FetchEnv :=
  ⟨some [0x50, 0x4B],
    fun _ => (.node [⟨"sub.zip", [0x50]⟩, ⟨"part.srt", [0x41]⟩] .nil, false)⟩

/-- A fetch environment whose download fails (network error, timeout
or bad HTTP status). -/
def exEnvFailedDownload : FetchEnv :=
  ⟨none, fun tr => (tr, true)⟩

/-! ## Codec lemmas -/

/-- The UTF-8 encoding of one Unicode scalar value, prepended to any
byte list, is accepted exactly when the tail is: the encoder only
produces well-formed, self-delimiting sequences. -/
theorem utf8EncodeChar_valid_append (c : Nat) (hc : isScalar c = true) (rest : List Nat) :
    utf8Valid (utf8EncodeChar c ++ rest) = utf8Valid rest := by
  have hc' : c < 0x110000 ∧ (c < 0xD800 ∨ 0xDFFF < c) := by
    simpa [isScalar, Bool.and_eq_true, Bool.not_eq_true'] using hc
  obtain ⟨hlt, hsur⟩ := hc'
  rw [utf8EncodeChar]
  split_ifs with h1 h2 h3
  · -- one byte: c itself
    simp only [List.cons_append, List.nil_append]
    rw [utf8Valid.eq_def]
    dsimp only
    rw [if_pos (by omega)]
  · -- two bytes
    simp only [List.cons_append, List.nil_append]
    rw [utf8Valid.eq_def]
    dsimp only
    rw [if_neg (by omega), if_pos (by omega), utf8Cont1]
    have hb1 : isCont (0x80 + c % 64) = true := by
      simp only [isCont, Bool.and_eq_true, decide_eq_true_eq]; omega
    rw [hb1, Bool.true_and]
  · -- three bytes
    simp only [List.cons_append, List.nil_append]
    rw [utf8Valid.eq_def]
    dsimp only
    by_cases hA : c < 0x1000
    · rw [if_neg (by omega), if_neg (by omega), if_pos (by omega), utf8ContE0]
      have hb1 : (0xA0 ≤ 0x80 + c / 64 % 64 && 0x80 + c / 64 % 64 ≤ 0xBF) = true := by
        simp only [Bool.and_eq_true, decide_eq_true_eq]; omega
      have hb2 : isCont (0x80 + c % 64) = true := by
        simp only [isCont, Bool.and_eq_true, decide_eq_true_eq]; omega
      rw [hb1, hb2, Bool.true_and, Bool.true_and]
    · by_cases hD : 0xD000 ≤ c ∧ c < 0xE000
      · rw [if_neg (by omega), if_neg (fun _hcon => by omega), if_neg (by omega),
          if_neg (fun _hcon => by omega), if_pos (by omega), utf8ContED]
        have hb1 : (0x80 ≤ 0x80 + c / 64 % 64 && 0x80 + c / 64 % 64 ≤ 0x9F) = true := by
          simp only [Bool.and_eq_true, decide_eq_true_eq]; omega
        have hb2 : isCont (0x80 + c % 64) = true := by
          simp only [isCont, Bool.and_eq_true, decide_eq_true_eq]; omega
        rw [hb1, hb2, Bool.true_and, Bool.true_and]
      · rw [if_neg (by omega), if_neg (fun _hcon => by omega), if_neg (by omega),
          if_pos (by omega), utf8Cont2]
        have hb1 : isCont (0x80 + c / 64 % 64) = true := by
          simp only [isCont, Bool.and_eq_true, decide_eq_true_eq]; omega
        have hb2 : isCont (0x80 + c % 64) = true := by
          simp only [isCont, Bool.and_eq_true, decide_eq_true_eq]; omega
        rw [hb1, hb2, Bool.true_and, Bool.true_and]
  · -- four bytes
    simp only [List.cons_append, List.nil_append]
    rw [utf8Valid.eq_def]
    dsimp only
    by_cases hA : c < 0x40000
    · rw [if_neg (by omega), if_neg (fun _hcon => by omega), if_neg (by omega),
        if_neg (fun _hcon => by omega), if_neg (by omega), if_pos (by omega), utf8ContF0]
      have hb1 : (0x90 ≤ 0x80 + c / 4096 % 64 && 0x80 + c / 4096 % 64 ≤ 0xBF) = true := by
        simp only [Bool.and_eq_true, decide_eq_true_eq]; omega
      have hb2 : isCont (0x80 + c / 64 % 64) = true := by
        simp only [isCont, Bool.and_eq_true, decide_eq_true_eq]; omega
      have hb3 : isCont (0x80 + c % 64) = true := by
        simp only [isCont, Bool.and_eq_true, decide_eq_true_eq]; omega
      rw [hb1, hb2, hb3, Bool.true_and, Bool.true_and, Bool.true_and]
    · by_cases hB : c < 0x100000
      · rw [if_neg (by omega), if_neg (fun _hcon => by omega), if_neg (by omega),
          if_neg (fun _hcon => by omega), if_neg (by omega), if_neg (fun _hcon => by omega),
          if_pos (by omega), utf8Cont3]
        have hb1 : isCont (0x80 + c / 4096 % 64) = true := by
          simp only [isCont, Bool.and_eq_true, decide_eq_true_eq]; omega
        have hb2 : isCont (0x80 + c / 64 % 64) = true := by
          simp only [isCont, Bool.and_eq_true, decide_eq_true_eq]; omega
        have hb3 : isCont (0x80 + c % 64) = true := by
          simp only [isCont, Bool.and_eq_true, decide_eq_true_eq]; omega
        rw [hb1, hb2, hb3, Bool.true_and, Bool.true_and, Bool.true_and]
      · rw [if_neg (by omega), if_neg (fun _hcon => by omega), if_neg (by omega),
          if_neg (fun _hcon => by omega), if_neg (by omega), if_neg (fun _hcon => by omega),
          if_neg (by omega), if_pos (by omega), utf8ContF4]
        have hb1 : (0x80 ≤ 0x80 + c / 4096 % 64 && 0x80 + c / 4096 % 64 ≤ 0x8F) = true := by
          simp only [Bool.and_eq_true, decide_eq_true_eq]; omega
        have hb2 : isCont (0x80 + c / 64 % 64) = true := by
          simp only [isCont, Bool.and_eq_true, decide_eq_true_eq]; omega
        have hb3 : isCont (0x80 + c % 64) = true := by
          simp only [isCont, Bool.and_eq_true, decide_eq_true_eq]; omega
        rw [hb1, hb2, hb3, Bool.true_and, Bool.true_and, Bool.true_and]

/-- The UTF-8 encoding of any sequence of Unicode scalar values is
well-formed UTF-8. -/
theorem utf8Encode_valid (cs : List Nat) (h : ∀ c ∈ cs, isScalar c = true) :
    utf8Valid (utf8Encode cs) = true := by
  induction cs with
  | nil => rfl
  | cons c cs ih =>
    have : utf8Encode (c :: cs) = utf8EncodeChar c ++ utf8Encode cs := by
      simp [utf8Encode]
    rw [this, utf8EncodeChar_valid_append c (h c (by simp)) (utf8Encode cs)]
    exact ih fun x hx => h x (by simp [hx])

set_option maxRecDepth 8000 in
/-- Every code point in the windows-1256 decoding table is a Unicode
scalar value. -/
theorem cp1256HighTable_scalar : ∀ x ∈ cp1256HighTable, isScalar x = true := by decide

/-- Whatever windows-1256 decodes a byte to is a Unicode scalar
value. -/
theorem cp1256DecodeByte_scalar (b x : Nat) (h : cp1256DecodeByte b = some x) :
    isScalar x = true := by
  rw [cp1256DecodeByte] at h
  split_ifs at h with h1 h2
  · cases h
    simp only [isScalar, Bool.and_eq_true, decide_eq_true_eq, Bool.not_eq_true',
      Bool.and_eq_false_iff, decide_eq_false_iff_not, not_le]
    omega
  · exact cp1256HighTable_scalar x (List.get?_mem h)

set_option maxRecDepth 8000 in
/-- Every code point in the iso-8859-7 decoding table is a Unicode
scalar value. -/
theorem iso8859_7HighTable_scalar :
    ∀ o ∈ iso8859_7HighTable, ∀ x, o = some x → isScalar x = true := by decide

/-- Whatever iso-8859-7 decodes a byte to is a Unicode scalar
value. -/
theorem iso8859_7DecodeByte_scalar (b x : Nat) (h : iso8859_7DecodeByte b = some x) :
    isScalar x = true := by
  rw [iso8859_7DecodeByte] at h
  split_ifs at h with h1 _h2
  · cases h
    simp only [isScalar, Bool.and_eq_true, decide_eq_true_eq, Bool.not_eq_true',
      Bool.and_eq_false_iff, decide_eq_false_iff_not, not_le]
    omega
  · rw [Option.join_eq_some] at h
    exact iso8859_7HighTable_scalar _ (List.get?_mem h) x rfl

/-- The windows-1256 codec decodes every byte: on any list of actual
bytes (below 256) it never raises. -/
theorem cp1256Valid_of_bytes (bs : List Nat) (h : ∀ b ∈ bs, b < 256) :
    cp1256Valid bs = true := by
  rw [cp1256Valid, List.all_eq_true]
  intro b hb
  have hb' := h b hb
  rw [cp1256DecodeByte]
  split_ifs with h1
  · rfl
  · have hlen : cp1256HighTable.length = 128 := by simp [cp1256HighTable]
    have hidx : b - 0x80 < cp1256HighTable.length := by rw [hlen]; omega
    rw [List.get?_eq_get hidx]
    rfl

/-- Everything windows-1256 decoding produces is scalar. -/
theorem cp1256Decode_scalar (bs : List Nat) :
    ∀ c ∈ cp1256Decode bs, isScalar c = true := by
  intro c hc
  rw [cp1256Decode, List.mem_filterMap] at hc
  obtain ⟨b, _, hb⟩ := hc
  exact cp1256DecodeByte_scalar b c hb

/-- Everything iso-8859-7 decoding produces is scalar. -/
theorem iso8859_7Decode_scalar (bs : List Nat) :
    ∀ c ∈ iso8859_7Decode bs, isScalar c = true := by
  intro c hc
  rw [iso8859_7Decode, List.mem_filterMap] at hc
  obtain ⟨b, _, hb⟩ := hc
  exact iso8859_7DecodeByte_scalar b c hb

/-! ## Detection lemmas -/

/-- Characterization of `get_subtitle_encoding` on an existing file:
the candidates are probed in the fixed order utf-8, windows-1256,
iso-8859-7, and the first whose codec accepts the whole content wins;
the sentinel is returned when all three fail. -/
theorem get_subtitle_encoding_some (bs : List Nat) :
    get_subtitle_encoding (some bs) =
      if utf8Valid bs then "utf-8"
      else if cp1256Valid bs then "windows-1256"
      else if iso8859_7Valid bs then "iso-8859-7"
      else "not_detected" := by
  cases h1 : utf8Valid bs <;> cases h2 : cp1256Valid bs <;> cases h3 : iso8859_7Valid bs <;>
    simp [get_subtitle_encoding, encodingCandidates, detectLoop, decodesWith, h1, h2, h3]

/-- Unfolding of the per-file normalization step of `encode_subtitles`
through the detector's three-way probe. -/
theorem encodeFileBytes_eq (bs : List Nat) :
    encodeFileBytes bs =
      if utf8Valid bs then bs
      else if cp1256Valid bs then utf8Encode (cp1256Decode bs)
      else if iso8859_7Valid bs then utf8Encode (iso8859_7Decode bs)
      else bs := by
  rw [encodeFileBytes, get_subtitle_encoding_some]
  cases h1 : utf8Valid bs <;> cases h2 : cp1256Valid bs <;> cases h3 : iso8859_7Valid bs <;>
    simp [decodeWith]

/-- The per-file normalization step is idempotent: a second pass
detects the rewritten content as UTF-8 (or meets unchanged content)
and leaves it alone. -/
theorem encodeFileBytes_idem (bs : List Nat) :
    encodeFileBytes (encodeFileBytes bs) = encodeFileBytes bs := by
  have hin := encodeFileBytes_eq bs
  by_cases h1 : utf8Valid bs = true
  · rw [if_pos h1] at hin
    simp only [hin]
  · by_cases h2 : cp1256Valid bs = true
    · rw [if_neg h1, if_pos h2] at hin
      rw [hin, encodeFileBytes_eq,
        if_pos (utf8Encode_valid _ (cp1256Decode_scalar bs))]
    · by_cases h3 : iso8859_7Valid bs = true
      · rw [if_neg h1, if_neg h2, if_pos h3] at hin
        rw [hin, encodeFileBytes_eq,
          if_pos (utf8Encode_valid _ (iso8859_7Decode_scalar bs))]
      · rw [if_neg h1, if_neg h2, if_neg h3] at hin
        simp only [hin]

/-- On actual byte content, a file that went through the per-file
normalization step is detected as UTF-8 by the next run. -/
theorem detect_encodeFileBytes (bs : List Nat) (h : ∀ b ∈ bs, b < 256) :
    get_subtitle_encoding (some (encodeFileBytes bs)) = "utf-8" := by
  have hin := encodeFileBytes_eq bs
  by_cases h1 : utf8Valid bs = true
  · rw [if_pos h1] at hin
    rw [hin, get_subtitle_encoding_some, if_pos h1]
  · have h2 : cp1256Valid bs = true := cp1256Valid_of_bytes bs h
    rw [if_neg h1, if_pos h2] at hin
    rw [hin, get_subtitle_encoding_some,
      if_pos (utf8Encode_valid _ (cp1256Decode_scalar bs))]

/-- Idempotence of the per-entry action of `encode_subtitles`. -/
theorem processEntry_idem (f : FileEntry) : processEntry (processEntry f) = processEntry f := by
  by_cases hs : strHasSuffix f.name ".srt" = true
  · have h1 : processEntry f = ⟨f.name, encodeFileBytes f.content⟩ := by
      rw [processEntry, if_pos hs]
    rw [h1, processEntry]
    dsimp only
    rw [if_pos hs, encodeFileBytes_idem]
  · have h1 : processEntry f = f := by rw [processEntry, if_neg hs]
    simp only [h1]

/-- Idempotence of the per-entry action, lifted to a directory's file
list. -/
theorem map_processEntry_idem (l : List FileEntry) :
    (l.map processEntry).map processEntry = l.map processEntry := by
  induction l with
  | nil => rfl
  | cons a l ih => simp only [List.map_cons, processEntry_idem, ih]

mutual
/-- Tree part of the idempotence of `encode_subtitles`. -/
theorem encode_subtitles_idem (t : DirTree) :
    encode_subtitles (encode_subtitles t) = encode_subtitles t := by
  cases t with
  | node files subs =>
    simp only [encode_subtitles]
    rw [encodeForest_idem subs, map_processEntry_idem]

/-- Forest part of the idempotence of `encode_subtitles`. -/
theorem encodeForest_idem (fr : Forest) :
    encodeForest (encodeForest fr) = encodeForest fr := by
  cases fr with
  | nil => rfl
  | cons n t rest =>
    simp only [encodeForest]
    rw [encode_subtitles_idem t, encodeForest_idem rest]
end

/-! ## Walk and clean_folder lemmas -/

mutual
/-- The walk of a cleaned tree: same directories in the same order,
with exactly the `.srt`/`.zip` files removed from each file list. -/
theorem clean_walkT (t : DirTree) (p : DirPath) :
    walkT p (clean_folder t)
      = (walkT p t).map fun e => (e.1, e.2.filter fun f => !isCleanTarget f.name) := by
  cases t with
  | node files subs =>
    simp only [clean_folder, walkT, List.map_cons]
    rw [clean_walkF subs p]

/-- Forest part of the walk characterization of `clean_folder`. -/
theorem clean_walkF (fr : Forest) (p : DirPath) :
    walkF p (cleanForest fr)
      = (walkF p fr).map fun e => (e.1, e.2.filter fun f => !isCleanTarget f.name) := by
  cases fr with
  | nil => rfl
  | cons n t rest =>
    simp only [cleanForest, walkF, List.map_append]
    rw [clean_walkT t (p ++ [n]), clean_walkF rest p]
end

mutual
/-- Tree part of the idempotence of `clean_folder`. -/
theorem clean_folder_idem (t : DirTree) :
    clean_folder (clean_folder t) = clean_folder t := by
  cases t with
  | node files subs =>
    simp only [clean_folder]
    rw [cleanForest_idem subs, List.filter_filter]
    simp only [Bool.and_self]

/-- Forest part of the idempotence of `clean_folder`. -/
theorem cleanForest_idem (fr : Forest) :
    cleanForest (cleanForest fr) = cleanForest fr := by
  cases fr with
  | nil => rfl
  | cons n t rest =>
    simp only [cleanForest]
    rw [clean_folder_idem t, cleanForest_idem rest]
end

mutual
/-- Tree part: on a tree containing no `.srt`/`.zip` file anywhere,
`clean_folder` is the identity. -/
theorem clean_folder_noop (t : DirTree) (p : DirPath)
    (h : ∀ e ∈ walkT p t, ∀ f ∈ e.2, isCleanTarget f.name = false) :
    clean_folder t = t := by
  cases t with
  | node files subs =>
    simp only [clean_folder]
    have hfiles : ∀ f ∈ files, isCleanTarget f.name = false := by
      intro f hf
      exact h (p, files) (by rw [walkT]; exact List.mem_cons_self _ _) f hf
    have hsubs : ∀ e ∈ walkF p subs, ∀ f ∈ e.2, isCleanTarget f.name = false := by
      intro e he f hf
      exact h e (by rw [walkT]; exact List.mem_cons_of_mem _ he) f hf
    rw [cleanForest_noop subs p hsubs, List.filter_eq_self.mpr]
    intro f hf
    rw [Bool.not_eq_true', hfiles f hf]

/-- Forest part of the no-op property of `clean_folder`. -/
theorem cleanForest_noop (fr : Forest) (p : DirPath)
    (h : ∀ e ∈ walkF p fr, ∀ f ∈ e.2, isCleanTarget f.name = false) :
    cleanForest fr = fr := by
  cases fr with
  | nil => rfl
  | cons n t rest =>
    simp only [cleanForest]
    have ht : ∀ e ∈ walkT (p ++ [n]) t, ∀ f ∈ e.2, isCleanTarget f.name = false := by
      intro e he f hf
      exact h e (by rw [walkF]; exact List.mem_append_left _ he) f hf
    have hrest : ∀ e ∈ walkF p rest, ∀ f ∈ e.2, isCleanTarget f.name = false := by
      intro e he f hf
      exact h e (by rw [walkF]; exact List.mem_append_right _ he) f hf
    rw [clean_folder_noop t (p ++ [n]) ht, cleanForest_noop rest p hrest]
end

/-! ## rename_subtitles lemmas -/

/-- The movie-search loop (flag plus double break) is first-hit search
over the walk entries in order. -/
theorem findMovieLoop_eq (l : List (DirPath × List FileEntry)) :
    findMovieLoop l = l.findSome? fun e => firstVideoInFiles e.2 := by
  induction l with
  | nil => rfl
  | cons e rest ih =>
    obtain ⟨p, files⟩ := e
    rw [findMovieLoop, List.findSome?_cons]
    cases firstVideoInFiles files
    · exact ih
    · rfl

/-- A file list without video files yields no reference name. -/
theorem firstVideoInFiles_none (files : List FileEntry)
    (h : ∀ f ∈ files, isVideo f.name = false) : firstVideoInFiles files = none := by
  induction files with
  | nil => rfl
  | cons f rest ih =>
    rw [firstVideoInFiles, if_neg]
    · exact ih fun x hx => h x (List.mem_cons_of_mem _ hx)
    · rw [h f (List.mem_cons_self _ _)]
      simp

/-- Walk entries without video files yield no reference name. -/
theorem findMovieLoop_none (l : List (DirPath × List FileEntry))
    (h : ∀ e ∈ l, ∀ f ∈ e.2, isVideo f.name = false) : findMovieLoop l = none := by
  induction l with
  | nil => rfl
  | cons e rest ih =>
    obtain ⟨p, files⟩ := e
    rw [findMovieLoop, firstVideoInFiles_none files (h (p, files) (List.mem_cons_self _ _))]
    exact ih fun x hx => h x (List.mem_cons_of_mem _ hx)

/-- Each attempted rename, by position: the k-th collected subtitle
file is renamed in its own directory, keeping its directory, with the
counter value `c + k`. -/
theorem renameOpsAux_get? (base : String) (srtCounter : Nat) :
    ∀ (l : List (DirPath × String)) (c k : Nat), k < l.length →
      (renameOpsAux base srtCounter l c).get? k
        = (l.get? k).map fun s => ⟨s.1, s.2, newSubtitleName base srtCounter (c + k)⟩ := by
  intro l
  induction l with
  | nil => intro c k hk; simp at hk
  | cons s rest ih =>
    intro c k hk
    obtain ⟨d, n⟩ := s
    cases k with
    | zero => rfl
    | succ k =>
      rw [renameOpsAux]
      simp only [List.get?_cons_succ]
      rw [ih (c + 1) k (by simpa using hk)]
      have harith : c + 1 + k = c + (k + 1) := by omega
      rw [harith]

/-- The rename loop attempts exactly one operation per collected
subtitle file, in order, each in that file's own directory. -/
theorem renameOpsAux_sources (base : String) (srtCounter : Nat) :
    ∀ (l : List (DirPath × String)) (c : Nat),
      (renameOpsAux base srtCounter l c).map (fun o => (o.dir, o.oldName)) = l := by
  intro l
  induction l with
  | nil => intro c; rfl
  | cons s rest ih =>
    intro c
    obtain ⟨d, n⟩ := s
    rw [renameOpsAux, List.map_cons, ih (c + 1)]

/-- Failures of individual renames do not change which operations are
attempted: the oracle-run loop attempts exactly the operations of the
failure-free loop. -/
theorem renameExecAux_ops (fails : RenameOp → Bool) (base : String) (srtCounter : Nat) :
    ∀ (l : List (DirPath × String)) (c : Nat),
      (renameExecAux fails base srtCounter l c).map Prod.fst
        = renameOpsAux base srtCounter l c := by
  intro l
  induction l with
  | nil => intro c; rfl
  | cons s rest ih =>
    intro c
    obtain ⟨d, n⟩ := s
    rw [renameExecAux, renameOpsAux, List.map_cons, ih (c + 1)]

/-- Failures of individual re-encodings do not change which files get
processed: the oracle-run loop visits every collected subtitle file. -/
theorem encodeExecLoop_files (ioFails : DirPath × String → Bool) :
    ∀ entries : List (DirPath × String × List Nat),
      (encodeExecLoop ioFails entries).map Prod.fst = entries.map fun e => (e.1, e.2.1) := by
  intro entries
  induction entries with
  | nil => rfl
  | cons e rest ih =>
    obtain ⟨d, n, bs⟩ := e
    rw [encodeExecLoop, List.map_cons, List.map_cons, ih]

/-! ## Claim theorems -/

/-- C1: for every file path, the encoding detector tries the candidate
encodings utf-8, windows-1256, iso-8859-7 in exactly that order,
returns the first candidate under which the entire file's bytes decode
without a decoding error, and returns the sentinel `'not_detected'`
when the file does not exist or when every candidate fails to
decode. -/
theorem spec_C1 (file : Option (List Nat)) :
    (file = none → get_subtitle_encoding file = "not_detected") ∧
    (∀ bs, file = some bs →
      get_subtitle_encoding file =
        if utf8Valid bs then "utf-8"
        else if cp1256Valid bs then "windows-1256"
        else if iso8859_7Valid bs then "iso-8859-7"
        else "not_detected") := by
  constructor
  · intro h
    rw [h]
    rfl
  · intro bs h
    rw [h, get_subtitle_encoding_some]

/-- Witness for C1 at concrete inputs: a missing file, a pure-ASCII
file, and a byte sequence that is not valid UTF-8. -/
theorem spec_C1_witness :
    get_subtitle_encoding none = "not_detected" ∧
    get_subtitle_encoding (some [0x41]) = "utf-8" ∧
    get_subtitle_encoding (some [0xC7]) = "windows-1256" :=
  ⟨(spec_C1 none).1 rfl,
   ((spec_C1 (some [0x41])).2 [0x41] rfl).trans (by decide),
   ((spec_C1 (some [0xC7])).2 [0xC7] rfl).trans (by decide)⟩

/-- C10: for every file that exists and whose bytes can be read,
`get_subtitle_encoding` returns either utf-8 or windows-1256 — the
iso-8859-7 return and the final not-detected fall-through are
unreachable, because the windows-1256 codec assigns a character to
every byte value and never raises a decoding error. -/
theorem spec_C10 (bs : List Nat) (h : ∀ b ∈ bs, b < 256) :
    get_subtitle_encoding (some bs) = "utf-8" ∨
      get_subtitle_encoding (some bs) = "windows-1256" := by
  rw [get_subtitle_encoding_some]
  by_cases h1 : utf8Valid bs = true
  · left
    rw [if_pos h1]
  · right
    rw [if_neg h1, if_pos (cp1256Valid_of_bytes bs h)]

/-- Witness for C10 on a file whose bytes are not valid UTF-8. -/
theorem spec_C10_witness :
    get_subtitle_encoding (some [0xFF, 0x00]) = "utf-8" ∨
      get_subtitle_encoding (some [0xFF, 0x00]) = "windows-1256" :=
  spec_C10 [0xFF, 0x00] (by decide)

/-- C2 counterexample: in the concrete tree with `a/a1/deep.mp4` (two
levels deep, in the subtree walked first) and `b/shallow.mp4` (one
level deep, walked later), the reference name chosen is `deep`, not
the base name of the video file closer to the root — refuting the
claim that the closer-to-root video always wins. -/
theorem spec_C2_counterexample :
    walkT [] exTreeTwoDepths =
      [([], []), (["a"], []), (["a", "a1"], [⟨"deep.mp4", []⟩]),
       (["b"], [⟨"shallow.mp4", []⟩])] ∧
    find_movie_base exTreeTwoDepths = some "deep" ∧
    find_movie_base exTreeTwoDepths ≠ some (splitextBase "shallow.mp4") := by
  refine ⟨by decide, by decide, by decide⟩

/-- C2 amended: the reference video is the first video file in
`os.walk` order, in which a directory's own files are all examined
before any content of its subdirectories; in particular a video file
in the walked root directory itself takes precedence over every video
file in subdirectories, but between sibling subtrees the one walked
earlier wins even when its video file is deeper. -/
theorem spec_C2_amended (t : DirTree) :
    find_movie_base t = (walkT [] t).findSome? (fun e => firstVideoInFiles e.2) ∧
    (∀ files subs b, t = .node files subs → firstVideoInFiles files = some b →
      find_movie_base t = some b) := by
  constructor
  · exact findMovieLoop_eq _
  · rintro files subs b rfl hb
    rw [find_movie_base, walkT, findMovieLoop, hb]

/-- Witness for the amended C2 on a tree with a video beside the root
and a deeper one below. -/
theorem spec_C2_witness :
    find_movie_base exTreeRootVideo =
      (walkT [] exTreeRootVideo).findSome? (fun e => firstVideoInFiles e.2) ∧
    find_movie_base exTreeRootVideo = some "Root" :=
  ⟨(spec_C2_amended exTreeRootVideo).1,
   (spec_C2_amended exTreeRootVideo).2 _ _ "Root" rfl (by decide)⟩

/-- C3: the encoding normalizer is idempotent — running
`encode_subtitles` twice leaves every file with the byte content of a
single run, because on the second run each already-converted file is
detected as UTF-8 and skipped without being rewritten. -/
theorem spec_C3 (t : DirTree) :
    encode_subtitles (encode_subtitles t) = encode_subtitles t ∧
    (∀ bs : List Nat, (∀ b ∈ bs, b < 256) →
      get_subtitle_encoding (some (encodeFileBytes bs)) = "utf-8") :=
  ⟨encode_subtitles_idem t, fun bs h => detect_encodeFileBytes bs h⟩

/-- Witness for C3 on a concrete tree holding ASCII, windows-1256 and
valid-UTF-8 subtitle files, and on concrete windows-1256 bytes. -/
theorem spec_C3_witness :
    encode_subtitles (encode_subtitles exTreeRename) = encode_subtitles exTreeRename ∧
    get_subtitle_encoding (some (encodeFileBytes [0xC7, 0xE1])) = "utf-8" :=
  ⟨(spec_C3 exTreeRename).1, (spec_C3 exTreeRename).2 [0xC7, 0xE1] (by decide)⟩

/-- Unfolding of `rename_subtitles` when a reference video name was
found. -/
theorem rename_subtitles_some (t : DirTree) (base : String)
    (h : find_movie_base t = some base) :
    rename_subtitles t =
      if (srtFilesInWalk t).length = 0 then ⟨[], false, true⟩
      else ⟨renameOpsAux base (srtFilesInWalk t).length (srtFilesInWalk t) 1,
            false, false⟩ := by
  simp only [rename_subtitles, h]

/-- C4: for every tree in which a reference video name is found, if
exactly one `.srt` file exists it is renamed to `base.srt` inside its
own directory; with more than one, the k-th `.srt` file in discovery
order (0-indexed here, so numbered `k+1`) is renamed to
`base.(k+1).srt` inside its own original directory; and the attempted
renames correspond one-to-one, in order and in place, to the
discovered subtitle files — no file is moved to another directory. -/
theorem spec_C4 (t : DirTree) (base : String) (h : find_movie_base t = some base) :
    ((srtFilesInWalk t).length = 1 →
      (rename_subtitles t).ops
        = (srtFilesInWalk t).map fun s => ⟨s.1, s.2, base ++ ".srt"⟩) ∧
    (1 < (srtFilesInWalk t).length → ∀ k, k < (srtFilesInWalk t).length →
      (rename_subtitles t).ops.get? k
        = ((srtFilesInWalk t).get? k).map
            fun s => ⟨s.1, s.2, base ++ "." ++ toString (k + 1) ++ ".srt"⟩) ∧
    (rename_subtitles t).ops.map (fun o => (o.dir, o.oldName)) = srtFilesInWalk t := by
  have hr := rename_subtitles_some t base h
  refine ⟨?_, ?_, ?_⟩
  · intro h1
    rw [hr, if_neg (by omega)]
    obtain ⟨s, hs⟩ := List.length_eq_one.mp h1
    obtain ⟨d, n⟩ := s
    rw [h1, hs]
    simp [renameOpsAux, newSubtitleName]
  · intro hgt k hk
    rw [hr, if_neg (by omega)]
    have hops := renameOpsAux_get? base (srtFilesInWalk t).length (srtFilesInWalk t) 1 k hk
    simp only [hops]
    have hlen1 : ¬((srtFilesInWalk t).length = 1) := by omega
    simp only [newSubtitleName, if_neg hlen1, Nat.add_comm 1 k]
  · rw [hr]
    by_cases hz : (srtFilesInWalk t).length = 0
    · rw [if_pos hz, List.length_eq_zero.mp hz]
      rfl
    · rw [if_neg hz]
      exact renameOpsAux_sources base (srtFilesInWalk t).length (srtFilesInWalk t) 1

/-- Witness for C4: the single-subtitle tree gets `Movie.srt`; in the
three-subtitle tree the second discovered file becomes `Movie.2.srt`
in its own directory, and the attempted renames match the discovered
files one-to-one. -/
theorem spec_C4_witness :
    (rename_subtitles exTreeOneSrt).ops
      = (srtFilesInWalk exTreeOneSrt).map (fun s => ⟨s.1, s.2, "Movie" ++ ".srt"⟩) ∧
    (rename_subtitles exTreeRename).ops.get? 1
      = ((srtFilesInWalk exTreeRename).get? 1).map
          (fun s => ⟨s.1, s.2, "Movie" ++ "." ++ toString (1 + 1) ++ ".srt"⟩) ∧
    (rename_subtitles exTreeRename).ops.map (fun o => (o.dir, o.oldName))
      = srtFilesInWalk exTreeRename :=
  ⟨(spec_C4 exTreeOneSrt "Movie" (by decide)).1 (by decide),
   (spec_C4 exTreeRename "Movie" (by decide)).2.1 (by decide) 1 (by decide),
   (spec_C4 exTreeRename "Movie" (by decide)).2.2⟩

/-- C5: after every invocation of `download_subtitle` in which the
download succeeded (so the archive was written), the temporary archive
`sub.zip` no longer exists in the target directory on return,
regardless of whether extraction succeeded, failed on a corrupt
archive, or raised anything else — the `finally` removal runs in every
case. -/
theorem spec_C5 (env : FetchEnv) (t : DirTree) (content : List Nat)
    (h : env.download = some content) :
    "sub.zip" ∉ (rootFiles (download_subtitle env t)).map FileEntry.name := by
  simp only [download_subtitle, h]
  intro hmem
  rw [List.mem_map] at hmem
  obtain ⟨f, hf, hname⟩ := hmem
  cases hext : (env.extract (writeRootFile "sub.zip" content (clean_folder t))).1 with
  | node files subs =>
    rw [hext, removeRootFile, rootFiles] at hf
    have h2 := (List.mem_filter.mp hf).2
    rw [hname] at h2
    simp at h2

/-- Witness for C5 with an extraction that raises after dropping a
stray `sub.zip` and a partial subtitle into the directory. -/
theorem spec_C5_witness :
    "sub.zip" ∉ (rootFiles (download_subtitle exEnvBadExtract exTreeDirty)).map
      FileEntry.name :=
  spec_C5 exEnvBadExtract exTreeDirty [0x50, 0x4B] rfl

/-- C6: when the download fails, `download_subtitle` returns normally
right after the unconditional pre-clean: the tree is exactly the
cleaned tree, which contains no `.srt` or `.zip` file anywhere, and in
particular no `sub.zip` was created in the target directory. -/
theorem spec_C6 (env : FetchEnv) (t : DirTree) (h : env.download = none) :
    download_subtitle env t = clean_folder t ∧
    (∀ e ∈ walkT [] (download_subtitle env t), ∀ f ∈ e.2, isCleanTarget f.name = false) ∧
    "sub.zip" ∉ (rootFiles (download_subtitle env t)).map FileEntry.name := by
  have hd : download_subtitle env t = clean_folder t := by
    simp only [download_subtitle, h]
  refine ⟨hd, ?_, ?_⟩
  · rw [hd, clean_walkT]
    intro e he f hf
    rw [List.mem_map] at he
    obtain ⟨e0, _, rfl⟩ := he
    have h2 := (List.mem_filter.mp hf).2
    simpa using h2
  · rw [hd]
    intro hmem
    rw [List.mem_map] at hmem
    obtain ⟨f, hf, hname⟩ := hmem
    cases t with
    | node files subs =>
      rw [clean_folder, rootFiles] at hf
      have h2 := (List.mem_filter.mp hf).2
      rw [hname] at h2
      simp [isCleanTarget] at h2
      exact absurd h2.2 (by decide)

/-- Witness for C6 on a directory holding stale subtitle, archive and
unrelated files. -/
theorem spec_C6_witness :
    download_subtitle exEnvFailedDownload exTreeDirty = clean_folder exTreeDirty ∧
    "sub.zip" ∉ (rootFiles (download_subtitle exEnvFailedDownload exTreeDirty)).map
      FileEntry.name :=
  ⟨(spec_C6 exEnvFailedDownload exTreeDirty rfl).1,
   (spec_C6 exEnvFailedDownload exTreeDirty rfl).2.2⟩

/-- C7: in both the renamer and the normalizer a failure on one file
is isolated: whatever subset of operations the OS makes fail, the
rename loop still attempts exactly the same operations (the counter is
incremented outside the `try`), and the re-encoding loop still visits
every discovered subtitle file. -/
theorem spec_C7 :
    (∀ (fails : RenameOp → Bool) (base : String) (srtCounter : Nat)
        (l : List (DirPath × String)) (c : Nat),
      (renameExecAux fails base srtCounter l c).map Prod.fst
        = renameOpsAux base srtCounter l c) ∧
    (∀ (ioFails : DirPath × String → Bool) (t : DirTree),
      (encodeExecLoop ioFails (srtEntriesInWalk t)).map Prod.fst
        = (srtEntriesInWalk t).map fun e => (e.1, e.2.1)) :=
  ⟨fun fails base sc l c => renameExecAux_ops fails base sc l c,
   fun ioFails t => encodeExecLoop_files ioFails (srtEntriesInWalk t)⟩

/-- C8: on a tree containing no file with a recognized video
extension, `rename_subtitles` is a no-op that reports the missing
reference: no rename is attempted, the no-movie message is the one
printed, and the function returns normally. -/
theorem spec_C8 (t : DirTree)
    (h : ∀ e ∈ walkT [] t, ∀ f ∈ e.2, isVideo f.name = false) :
    rename_subtitles t = ⟨[], true, false⟩ := by
  have hm : find_movie_base t = none := by
    rw [find_movie_base]
    exact findMovieLoop_none _ h
  simp only [rename_subtitles, hm]

/-- Witness for C8 on a tree with subtitle and text files but no
video. -/
theorem spec_C8_witness : rename_subtitles exTreeNoVideo = ⟨[], true, false⟩ :=
  spec_C8 exTreeNoVideo (by decide)

/-- C9: the pre-clean removes exactly the files whose names end in
`.srt` or `.zip` — every directory keeps its other files unchanged and
in order — and it is idempotent, with a run on a tree that has no
matching file returning the tree unchanged (removing zero files is not
an error). -/
theorem spec_C9 (t : DirTree) :
    (∀ p, walkT p (clean_folder t)
        = (walkT p t).map fun e => (e.1, e.2.filter fun f => !isCleanTarget f.name)) ∧
    clean_folder (clean_folder t) = clean_folder t ∧
    ((∀ e ∈ walkT [] t, ∀ f ∈ e.2, isCleanTarget f.name = false) → clean_folder t = t) :=
  ⟨fun p => clean_walkT t p, clean_folder_idem t,
   fun h => clean_folder_noop t [] h⟩

/-- Witness for C9: idempotence on a dirty tree and the no-op case on
a tree without subtitle or archive files. -/
theorem spec_C9_witness :
    clean_folder (clean_folder exTreeDirty) = clean_folder exTreeDirty ∧
    clean_folder exTreeClean = exTreeClean :=
  ⟨(spec_C9 exTreeDirty).2.1, (spec_C9 exTreeClean).2.2 (by decide)⟩
